import Mathlib

/-!
Formal model of `src/hazard_circuit_breaker.py`.

Conventions of the shallow embedding:
* Wall-clock timestamps (`time.time()`) are rationals supplied as explicit
  inputs; a call to `execute` receives its entry time `now`, and the wrapped
  operation is described by its duration, so the `time.time()` reading taken
  right after the operation ends is modelled as `now + dur` (adjacent
  sub-millisecond clock reads inside one call are identified).
* `time.localtime(now).tm_hour` is modelled by an explicit `hour : ℕ` input.
* Python float arithmetic is idealised as exact real arithmetic, except where
  a claim is specifically about float overflow; there the documented
  `OverflowError` behaviour of `math.exp` on IEEE doubles is modelled
  explicitly (see `evaluateRiskFP`).
* Python `None` is modelled as `Option.none`; a Python value of the wrapped
  operation's result type is `Option β` so that `None` results are
  representable and distinguishable from absence.
* Exceptions are values: an operation either returns a value or raises one of
  the exception kinds distinguished by the source (`TimeoutError`,
  `OpenCircuitException`, anything else).
-/

open scoped Classical

namespace HazardCB

/-- Event kind stored by `FeedbackCheckpointer`: the source stores the strings
`"SUCCESS"` and `"FAILURE"`. -/
inductive EvType where
  | success
  | failure
  deriving DecidableEq, Repr

/-- One entry of the `FeedbackCheckpointer._events` deque:
`(time.time(), type, severity, duration)`. -/
structure Ev where
  t : ℚ
  typ : EvType
  sev : ℚ
  dur : Option ℚ
  deriving DecidableEq, Repr

/-- `FeedbackCheckpointer`: a bounded deque of events
(`deque(maxlen=max_events)`, default 1000).  The `_checkpoints` store is not
modelled; no claim touches it. -/
structure FeedbackCheckpointer where
  maxEvents : ℕ := 1000
  events : List Ev := []
  deriving DecidableEq, Repr

/-- Appending to a `deque(maxlen=n)`: the new element goes on the right and
the oldest elements are dropped from the left once the length exceeds the
bound. -/
def FeedbackCheckpointer.push (cp : FeedbackCheckpointer) (e : Ev) :
    FeedbackCheckpointer :=
  let es := cp.events ++ [e]
  ⟨cp.maxEvents, if cp.maxEvents < es.length then es.drop (es.length - cp.maxEvents) else es⟩

/-- `record_success(duration)`: appends `(now, "SUCCESS", 0.0, duration)`. -/
def recordSuccess (cp : FeedbackCheckpointer) (now : ℚ) (dur : Option ℚ) :
    FeedbackCheckpointer :=
  cp.push ⟨now, EvType.success, 0, dur⟩

/-- `record_failure(severity)`: appends `(now, "FAILURE", severity, None)`. -/
def recordFailure (cp : FeedbackCheckpointer) (now : ℚ) (sev : ℚ) :
    FeedbackCheckpointer :=
  cp.push ⟨now, EvType.failure, sev, none⟩

/-- `recent_failure_rate(window)`: the number of FAILURE events with
`t >= now - window`, divided by the window (or the bare count if the window
is not positive). -/
def recentFailureRate (cp : FeedbackCheckpointer) (now : ℚ) (window : ℚ) : ℚ :=
  let cutoff := now - window
  let count := (cp.events.filter (fun e => decide (e.typ = EvType.failure ∧ cutoff ≤ e.t))).length
  if 0 < window then (count : ℚ) / window else (count : ℚ)

/-- `seasonal_factor(now)`: 1.2 during business hours (8 ≤ hour < 18),
0.8 otherwise. -/
def seasonalFactor (hour : ℕ) : ℚ :=
  if 8 ≤ hour ∧ hour < 18 then 1.2 else 0.8

/-- The durations entering `volatility`: SUCCESS events in the window whose
duration is truthy in Python (`d and t >= cutoff`), i.e. present and
nonzero. -/
def volDurations (cp : FeedbackCheckpointer) (now : ℚ) (window : ℚ) : List ℚ :=
  let cutoff := now - window
  cp.events.filterMap (fun e =>
    match e.dur with
    | some d => if e.typ = EvType.success ∧ d ≠ 0 ∧ cutoff ≤ e.t then some d else none
    | none => none)

/-- The population variance computed inside `volatility` (the quantity under
the square root). -/
def volatilitySq (cp : FeedbackCheckpointer) (now : ℚ) (window : ℚ) : ℚ :=
  let ds := volDurations cp now window
  if ds = [] then 0
  else
    let mean := ds.sum / (ds.length : ℚ)
    ((ds.map (fun x => (x - mean) ^ 2)).sum) / (ds.length : ℚ)

/-- `volatility(window)`: 0 with no samples, else the population standard
deviation of the windowed successful-call durations. -/
noncomputable def volatility (cp : FeedbackCheckpointer) (now : ℚ) (window : ℚ) : ℝ :=
  if volDurations cp now window = [] then 0
  else Real.sqrt ((volatilitySq cp now window : ℚ) : ℝ)

/-- `last_error_severity()`: severity of the most recent FAILURE event,
0.0 if none. -/
def lastErrorSeverity (cp : FeedbackCheckpointer) : ℚ :=
  match cp.events.reverse.find? (fun e => decide (e.typ = EvType.failure)) with
  | some e => e.sev
  | none => 0

/-- `RiskParams`: the five weights and the trip threshold. -/
structure RiskParams where
  theta0 : ℝ := 0
  thetaFail : ℝ := 0
  thetaSeason : ℝ := 0
  thetaVol : ℝ := 0
  thetaSev : ℝ := 0
  threshold : ℝ := 1

/-- The raw linear combination computed by `RiskStrategy.evaluate_risk`
(window defaults 60 for the failure rate and 300 for volatility, as in the
source). -/
noncomputable def rawScore (p : RiskParams) (cp : FeedbackCheckpointer)
    (now : ℚ) (hour : ℕ) : ℝ :=
  p.theta0 + p.thetaFail * ((recentFailureRate cp now 60 : ℚ) : ℝ)
    + p.thetaSeason * ((seasonalFactor hour : ℚ) : ℝ)
    + p.thetaVol * volatility cp now 300
    + p.thetaSev * ((lastErrorSeverity cp : ℚ) : ℝ)

/-- `math.log1p(math.exp(raw))`, idealised over the reals. -/
noncomputable def softplus (x : ℝ) : ℝ :=
  Real.log (1 + Real.exp x)

/-- `RiskStrategy.evaluate_risk`, idealised over the reals. -/
noncomputable def evaluateRisk (p : RiskParams) (cp : FeedbackCheckpointer)
    (now : ℚ) (hour : ℕ) : ℝ :=
  softplus (rawScore p cp now hour)

/-- The largest argument for which CPython's `math.exp` on IEEE doubles does
not raise `OverflowError`: `log(sys.float_info.max) ≈ 709.7827128933840`. -/
def expMaxArg : ℚ := 709.7827128933840

/-- `RiskStrategy.evaluate_risk` with the float-overflow behaviour of
`math.exp` made explicit: the source computes `math.log1p(math.exp(raw))`,
and `math.exp(raw)` raises `OverflowError` (modelled as `Except.error ()`)
whenever `raw` exceeds `log(DBL_MAX)`.  Below that bound the value is
idealised as the exact real. -/
noncomputable def evaluateRiskFP (p : RiskParams) (cp : FeedbackCheckpointer)
    (now : ℚ) (hour : ℕ) : Except Unit ℝ :=
  if ((expMaxArg : ℚ) : ℝ) < rawScore p cp now hour then Except.error ()
  else Except.ok (softplus (rawScore p cp now hour))

/-- `Mitigation`: a default fallback value and a keyed cache.  Both the
fallback slot and cached values are Python values, so `Option β` with
`none` for Python `None`; the cache maps a key to `none` (absent) or
`some v` (present, storing the Python value `v`). -/
structure Mitigation (K β : Type) where
  fallback : Option β := none
  cache : K → Option (Option β) := fun _ => none

/-- `Mitigation.apply(key)`: return the cache entry if the key is not `None`
and present; else the fallback if it `is not None`; else raise
`OpenCircuitException("No fallback available.")` (modelled as
`Except.error ()`). -/
def Mitigation.apply {K β : Type} (m : Mitigation K β) (key : Option K) :
    Except Unit (Option β) :=
  match key with
  | some k =>
    match m.cache k with
    | some v => Except.ok v
    | none =>
      match m.fallback with
      | some fb => Except.ok (some fb)
      | none => Except.error ()
  | none =>
    match m.fallback with
    | some fb => Except.ok (some fb)
    | none => Except.error ()

/-- The exception kinds the source distinguishes: `TimeoutError` (severity
0.5 in `Handler._fail`), `OpenCircuitException` (caught by name in
`execute`), and any other exception. -/
inductive Exc where
  | timeoutErr
  | openCircuitErr
  | otherErr
  deriving DecidableEq, Repr

/-- The `type(err).__name__` string logged in ERROR entries. -/
def excName : Exc → String
  | Exc.timeoutErr => "TimeoutError"
  | Exc.openCircuitErr => "OpenCircuitException"
  | Exc.otherErr => "Exception"

/-- Breaker state strings `"CLOSED" | "OPEN" | "HALF_OPEN"`. -/
inductive BState where
  | CLOSED
  | OPEN
  | HALF_OPEN
  deriving DecidableEq, Repr

/-- The sanitized detail payloads appearing in audit entries. -/
inductive LogDetail where
  | riskD (risk : ℝ)
  | errorD (ty : String) (sev : ℚ)
  | failD (err : String) (dur : ℚ)
  | timeD (t : ℚ)

/-- One audit record: event name plus details. -/
abbrev LogRec : Type := String × LogDetail

/-- A wrapped operation, described extensionally: how long the call takes,
its peak traced allocation, and whether it returns a value or raises. -/
structure Op (β : Type) where
  dur : ℚ
  peakAlloc : ℕ := 0
  result : Except Exc (Option β)

/-- Immutable manager configuration: risk parameters, the budgets stored on
the strategy, and the cooldown. -/
structure Manager (K β : Type) where
  params : RiskParams
  timeBudget : Option ℚ := none
  memBudget : Option ℕ := none
  cooldown : ℚ := 5

/-- The manager's mutable state: the checkpointer, the mitigation object,
the breaker state string, `last_event`, and the audit log written so far. -/
structure MState (K β : Type) where
  cp : FeedbackCheckpointer
  mitigation : Mitigation K β
  bstate : BState
  lastEvent : ℚ
  log : List LogRec

/-- The caller-visible outcome of one `execute` call: a returned Python value
or a raised exception. -/
inductive Outcome (β : Type) where
  | val (v : Option β)
  | exc (e : Exc)

/-- `self.mitigation.apply(key)` as a call outcome: its
`OpenCircuitException("No fallback available.")` propagates to the caller. -/
def applyOutcome {K β : Type} (m : Mitigation K β) (key : Option K) : Outcome β :=
  match m.apply key with
  | Except.ok v => Outcome.val v
  | Except.error _ => Outcome.exc Exc.openCircuitErr

/-- Python truthiness of the stored `time_budget` (`if self.time_budget:`):
`None` and `0.0` are falsy. -/
def tbActive (tb : Option ℚ) : Prop :=
  match tb with
  | some b => b ≠ 0
  | none => False

instance : DecidablePred tbActive := by
  intro tb
  unfold tbActive
  match tb with
  | some b => exact instDecidableNot
  | none => exact instDecidableFalse

/-- What `Handler.run` observes from the operation: with an active time
budget, `fut.result(timeout=...)` raises `TimeoutError` once the budget
elapses; otherwise the operation's own result (value or exception) comes
through. -/
def effectiveResult {β : Type} (tb : Option ℚ) (op : Op β) : Except Exc (Option β) :=
  if tbActive tb ∧ (tb.getD 0) < op.dur then Except.error Exc.timeoutErr
  else op.result

/-- The elapsed time `time.time() - start` observed in `Handler._fail`:
the budget when the call timed out, the operation's own duration otherwise. -/
def effectiveDur {β : Type} (tb : Option ℚ) (op : Op β) : ℚ :=
  if tbActive tb ∧ (tb.getD 0) < op.dur then tb.getD 0
  else op.dur

/-- Result of `Handler.run`: updated checkpointer, audit records appended,
and either the operation's value or the exception `Handler._fail` raises.
`tracemalloc` is started and stopped when a memory budget is set, but the
source never reads the traced peak, so `op.peakAlloc` and `M.memBudget`
have no effect here — faithfully to `Handler.run`. -/
structure RunOut (β : Type) where
  cp : FeedbackCheckpointer
  logs : List LogRec
  res : Except Exc (Option β)

/-- `Handler.run` composed with `Handler._fail` and `ErrorHandler.handle`:
on success the value passes through; on failure a FAIL record is written,
then `handle` writes ERROR, records the failure (severity 0.5 for timeouts,
1.0 otherwise), re-evaluates the risk, and either trips (TRIP record, raise
a fresh `OpenCircuitException`) or re-raises the original exception. -/
noncomputable def handlerRun {K β : Type} (M : Manager K β)
    (cp : FeedbackCheckpointer) (now : ℚ) (hour : ℕ) (op : Op β) : RunOut β :=
  match effectiveResult M.timeBudget op with
  | Except.ok v => ⟨cp, [], Except.ok v⟩
  | Except.error e =>
    let dur := effectiveDur M.timeBudget op
    let sev : ℚ := if e = Exc.timeoutErr then 1/2 else 1
    let cp1 := recordFailure cp (now + dur) sev
    let risk := evaluateRisk M.params cp1 (now + dur) hour
    if M.params.threshold < risk then
      ⟨cp1, [("FAIL", LogDetail.failD (excName e) dur),
             ("ERROR", LogDetail.errorD (excName e) sev),
             ("TRIP", LogDetail.riskD risk)],
        Except.error Exc.openCircuitErr⟩
    else
      ⟨cp1, [("FAIL", LogDetail.failD (excName e) dur),
             ("ERROR", LogDetail.errorD (excName e) sev)],
        Except.error e⟩

/-- `CircuitBreakerManager.execute`.  Returns the state after the call, the
caller-visible outcome, and how many times the wrapped operation was
invoked (0 or 1). -/
noncomputable def execute {K β : Type} (M : Manager K β) (s : MState K β)
    (now : ℚ) (hour : ℕ) (key : Option K) (op : Op β) :
    MState K β × Outcome β × ℕ :=
  let risk := evaluateRisk M.params s.cp now hour
  if s.bstate = BState.OPEN ∧ now - s.lastEvent < M.cooldown then
    ({ s with log := s.log ++ [("BLOCK", LogDetail.riskD risk)] },
      applyOutcome s.mitigation key, 0)
  else if M.params.threshold < risk then
    ({ s with
        bstate := BState.OPEN
        lastEvent := now
        log := s.log ++ [("OPEN", LogDetail.riskD risk)] },
      applyOutcome s.mitigation key, 0)
  else
    let s1 :=
      if s.bstate = BState.OPEN then
        { s with
            bstate := BState.HALF_OPEN
            lastEvent := now
            log := s.log ++ [("HALF_OPEN", LogDetail.riskD risk)] }
      else s
    let r := handlerRun M s1.cp now hour op
    match r.res with
    | Except.error e =>
      if e = Exc.openCircuitErr then
        ({ s1 with cp := r.cp, log := s1.log ++ r.logs },
          applyOutcome s1.mitigation key, 1)
      else
        ({ s1 with cp := r.cp, log := s1.log ++ r.logs }, Outcome.exc e, 1)
    | Except.ok v =>
      if s1.bstate = BState.HALF_OPEN then
        ({ s1 with
            bstate := BState.CLOSED
            cp := recordSuccess r.cp (now + op.dur) (some op.dur)
            log := s1.log ++ r.logs ++ [("CLOSED", LogDetail.timeD now)] },
          Outcome.val v, 1)
      else
        ({ s1 with
            cp := recordSuccess r.cp (now + op.dur) (some op.dur)
            log := s1.log ++ r.logs },
          Outcome.val v, 1)

/-- `SecureLogger`'s chaining state: `_last_hash` and the lines written, one
`(entry, digest)` pair per line.  The hash function is a parameter of the
model; the source uses `hashlib.sha256(...).hexdigest()`. -/
structure LoggerState where
  lastHash : Option String := none
  lines : List (String × String) := []

/-- One `log_event` call, abstracted over the already-formatted entry text:
`digest = H((last_hash or "") ++ entry)`, then the line `entry|hash=digest`
is appended and `_last_hash` updated. -/
def logEvent (H : String → String) (s : LoggerState) (entry : String) : LoggerState :=
  let digest := H ((s.lastHash.getD "") ++ entry)
  ⟨some digest, s.lines ++ [(entry, digest)]⟩

/-- Running the logger from a fresh state over a list of formatted entries. -/
def runLogger (H : String → String) (entries : List String) : LoggerState :=
  entries.foldl (logEvent H) ⟨none, []⟩

/-- The verifier's forward recomputation of the digest chain from a given
previous digest: digest n = H(previous digest ++ entry n). -/
def chainFrom (H : String → String) (prev : String) : List String → List String
  | [] => []
  | e :: es =>
    let d := H (prev ++ e)
    d :: chainFrom H d es

/-- Recomputing the whole chain from the first line (empty initial digest). -/
def recomputeChain (H : String → String) (entries : List String) : List String :=
  chainFrom H "" entries

/-! Elementary facts about the softplus transform. -/

theorem softplus_nonneg (x : ℝ) : 0 ≤ softplus x := by
  have h := Real.exp_pos x
  exact Real.log_nonneg (by linarith)

theorem lt_softplus (x : ℝ) : x < softplus x := by
  have h := Real.exp_pos x
  calc x = Real.log (Real.exp x) := (Real.log_exp x).symm
    _ < Real.log (1 + Real.exp x) := Real.log_lt_log h (by linarith)

theorem softplus_le_log_two {x : ℝ} (h : x ≤ 0) : softplus x ≤ Real.log 2 := by
  have h1 : Real.exp x ≤ 1 := Real.exp_le_one_iff.mpr h
  have h2 := Real.exp_pos x
  have h3 : (0:ℝ) < 1 + Real.exp x := by linarith
  have h4 : (1:ℝ) + Real.exp x ≤ 2 := by linarith
  calc softplus x = Real.log (1 + Real.exp x) := rfl
    _ ≤ Real.log 2 := (Real.log_le_log_iff h3 (by norm_num)).mpr h4

theorem log_two_lt_one : Real.log 2 < 1 :=
  lt_trans Real.log_two_lt_d9 (by norm_num)

theorem softplus_lt_one_of_nonpos {x : ℝ} (h : x ≤ 0) : softplus x < 1 :=
  lt_of_le_of_lt (softplus_le_log_two h) log_two_lt_one

/-! Step lemmas reducing `execute` along each control path of the source. -/

/-- The post-failure risk computed inside `ErrorHandler.handle` when the
operation's effective failure is `e`. -/
noncomputable def postFailRisk {K β : Type} (M : Manager K β)
    (cp : FeedbackCheckpointer) (now : ℚ) (hour : ℕ) (op : Op β) (e : Exc) : ℝ :=
  evaluateRisk M.params
    (recordFailure cp (now + effectiveDur M.timeBudget op)
      (if e = Exc.timeoutErr then 1/2 else 1))
    (now + effectiveDur M.timeBudget op) hour

theorem handlerRun_ok {K β : Type} (M : Manager K β) (cp : FeedbackCheckpointer)
    (now : ℚ) (hour : ℕ) (op : Op β) (v : Option β)
    (h : effectiveResult M.timeBudget op = Except.ok v) :
    handlerRun M cp now hour op = ⟨cp, [], Except.ok v⟩ := by
  unfold handlerRun
  rw [h]

theorem handlerRun_trip {K β : Type} (M : Manager K β) (cp : FeedbackCheckpointer)
    (now : ℚ) (hour : ℕ) (op : Op β) (e : Exc)
    (h : effectiveResult M.timeBudget op = Except.error e)
    (ht : M.params.threshold < postFailRisk M cp now hour op e) :
    handlerRun M cp now hour op =
      ⟨recordFailure cp (now + effectiveDur M.timeBudget op)
          (if e = Exc.timeoutErr then 1/2 else 1),
        [("FAIL", LogDetail.failD (excName e) (effectiveDur M.timeBudget op)),
         ("ERROR", LogDetail.errorD (excName e) (if e = Exc.timeoutErr then 1/2 else 1)),
         ("TRIP", LogDetail.riskD (postFailRisk M cp now hour op e))],
        Except.error Exc.openCircuitErr⟩ := by
  unfold postFailRisk at ht ⊢
  unfold handlerRun
  rw [h]
  simp only
  rw [if_pos ht]

theorem handlerRun_pass {K β : Type} (M : Manager K β) (cp : FeedbackCheckpointer)
    (now : ℚ) (hour : ℕ) (op : Op β) (e : Exc)
    (h : effectiveResult M.timeBudget op = Except.error e)
    (ht : ¬ M.params.threshold < postFailRisk M cp now hour op e) :
    handlerRun M cp now hour op =
      ⟨recordFailure cp (now + effectiveDur M.timeBudget op)
          (if e = Exc.timeoutErr then 1/2 else 1),
        [("FAIL", LogDetail.failD (excName e) (effectiveDur M.timeBudget op)),
         ("ERROR", LogDetail.errorD (excName e) (if e = Exc.timeoutErr then 1/2 else 1))],
        Except.error e⟩ := by
  unfold postFailRisk at ht
  unfold handlerRun
  rw [h]
  simp only
  rw [if_neg ht]

theorem execute_blocked {K β : Type} (M : Manager K β) (s : MState K β)
    (now : ℚ) (hour : ℕ) (key : Option K) (op : Op β)
    (h1 : s.bstate = BState.OPEN) (h2 : now - s.lastEvent < M.cooldown) :
    execute M s now hour key op =
      ({ s with log := s.log ++
          [("BLOCK", LogDetail.riskD (evaluateRisk M.params s.cp now hour))] },
        applyOutcome s.mitigation key, 0) := by
  unfold execute
  rw [if_pos ⟨h1, h2⟩]

theorem execute_opens {K β : Type} (M : Manager K β) (s : MState K β)
    (now : ℚ) (hour : ℕ) (key : Option K) (op : Op β)
    (h1 : ¬ (s.bstate = BState.OPEN ∧ now - s.lastEvent < M.cooldown))
    (h2 : M.params.threshold < evaluateRisk M.params s.cp now hour) :
    execute M s now hour key op =
      ({ s with
          bstate := BState.OPEN
          lastEvent := now
          log := s.log ++
            [("OPEN", LogDetail.riskD (evaluateRisk M.params s.cp now hour))] },
        applyOutcome s.mitigation key, 0) := by
  unfold execute
  rw [if_neg h1, if_pos h2]

theorem execute_closed_ok {K β : Type} (M : Manager K β) (s : MState K β)
    (now : ℚ) (hour : ℕ) (key : Option K) (op : Op β) (v : Option β)
    (h0 : s.bstate = BState.CLOSED)
    (h2 : ¬ M.params.threshold < evaluateRisk M.params s.cp now hour)
    (h3 : effectiveResult M.timeBudget op = Except.ok v) :
    execute M s now hour key op =
      ({ s with cp := recordSuccess s.cp (now + op.dur) (some op.dur) },
        Outcome.val v, 1) := by
  unfold execute
  rw [if_neg (by simp [h0]), if_neg h2, if_neg (by simp [h0])]
  simp only [handlerRun_ok M s.cp now hour op v h3]
  simp [h0]

theorem execute_closed_err_trip {K β : Type} (M : Manager K β) (s : MState K β)
    (now : ℚ) (hour : ℕ) (key : Option K) (op : Op β) (e : Exc)
    (h0 : s.bstate = BState.CLOSED)
    (h2 : ¬ M.params.threshold < evaluateRisk M.params s.cp now hour)
    (h3 : effectiveResult M.timeBudget op = Except.error e)
    (h4 : M.params.threshold < postFailRisk M s.cp now hour op e) :
    execute M s now hour key op =
      ({ s with
          cp := recordFailure s.cp (now + effectiveDur M.timeBudget op)
            (if e = Exc.timeoutErr then 1/2 else 1)
          log := s.log ++
            [("FAIL", LogDetail.failD (excName e) (effectiveDur M.timeBudget op)),
             ("ERROR", LogDetail.errorD (excName e) (if e = Exc.timeoutErr then 1/2 else 1)),
             ("TRIP", LogDetail.riskD (postFailRisk M s.cp now hour op e))] },
        applyOutcome s.mitigation key, 1) := by
  unfold execute
  rw [if_neg (by simp [h0]), if_neg h2, if_neg (by simp [h0])]
  simp only [handlerRun_trip M s.cp now hour op e h3 h4]
  simp

theorem execute_closed_err_pass {K β : Type} (M : Manager K β) (s : MState K β)
    (now : ℚ) (hour : ℕ) (key : Option K) (op : Op β) (e : Exc)
    (h0 : s.bstate = BState.CLOSED)
    (h2 : ¬ M.params.threshold < evaluateRisk M.params s.cp now hour)
    (h3 : effectiveResult M.timeBudget op = Except.error e)
    (h4 : ¬ M.params.threshold < postFailRisk M s.cp now hour op e)
    (h5 : e ≠ Exc.openCircuitErr) :
    execute M s now hour key op =
      ({ s with
          cp := recordFailure s.cp (now + effectiveDur M.timeBudget op)
            (if e = Exc.timeoutErr then 1/2 else 1)
          log := s.log ++
            [("FAIL", LogDetail.failD (excName e) (effectiveDur M.timeBudget op)),
             ("ERROR", LogDetail.errorD (excName e) (if e = Exc.timeoutErr then 1/2 else 1))] },
        Outcome.exc e, 1) := by
  unfold execute
  rw [if_neg (by simp [h0]), if_neg h2, if_neg (by simp [h0])]
  simp only [handlerRun_pass M s.cp now hour op e h3 h4]
  simp [h5]

theorem execute_probe_ok {K β : Type} (M : Manager K β) (s : MState K β)
    (now : ℚ) (hour : ℕ) (key : Option K) (op : Op β) (v : Option β)
    (h0 : s.bstate = BState.OPEN)
    (h1 : ¬ now - s.lastEvent < M.cooldown)
    (h2 : ¬ M.params.threshold < evaluateRisk M.params s.cp now hour)
    (h3 : effectiveResult M.timeBudget op = Except.ok v) :
    execute M s now hour key op =
      ({ s with
          bstate := BState.CLOSED
          lastEvent := now
          cp := recordSuccess s.cp (now + op.dur) (some op.dur)
          log := s.log ++
            [("HALF_OPEN", LogDetail.riskD (evaluateRisk M.params s.cp now hour)),
             ("CLOSED", LogDetail.timeD now)] },
        Outcome.val v, 1) := by
  unfold execute
  rw [if_neg (by simp [h1]), if_neg h2, if_pos h0]
  simp only [handlerRun_ok M s.cp now hour op v h3]
  simp

theorem execute_probe_err_trip {K β : Type} (M : Manager K β) (s : MState K β)
    (now : ℚ) (hour : ℕ) (key : Option K) (op : Op β) (e : Exc)
    (h0 : s.bstate = BState.OPEN)
    (h1 : ¬ now - s.lastEvent < M.cooldown)
    (h2 : ¬ M.params.threshold < evaluateRisk M.params s.cp now hour)
    (h3 : effectiveResult M.timeBudget op = Except.error e)
    (h4 : M.params.threshold < postFailRisk M s.cp now hour op e) :
    execute M s now hour key op =
      ({ s with
          bstate := BState.HALF_OPEN
          lastEvent := now
          cp := recordFailure s.cp (now + effectiveDur M.timeBudget op)
            (if e = Exc.timeoutErr then 1/2 else 1)
          log := s.log ++
            [("HALF_OPEN", LogDetail.riskD (evaluateRisk M.params s.cp now hour)),
             ("FAIL", LogDetail.failD (excName e) (effectiveDur M.timeBudget op)),
             ("ERROR", LogDetail.errorD (excName e) (if e = Exc.timeoutErr then 1/2 else 1)),
             ("TRIP", LogDetail.riskD (postFailRisk M s.cp now hour op e))] },
        applyOutcome s.mitigation key, 1) := by
  unfold execute
  rw [if_neg (by simp [h1]), if_neg h2, if_pos h0]
  simp only [handlerRun_trip M s.cp now hour op e h3 h4]
  simp

/-! Helper lemmas for the audit hash chain. -/

theorem str_append_cancel_right (a b t : String) (h : a ++ t = b ++ t) : a = b := by
  cases a with
  | mk da =>
  cases b with
  | mk db =>
  cases t with
  | mk dt =>
  have h2 : da ++ dt = db ++ dt := congrArg String.data h
  exact congrArg String.mk (List.append_cancel_right h2)

theorem str_append_cancel_left (a b t : String) (h : t ++ a = t ++ b) : a = b := by
  cases a with
  | mk da =>
  cases b with
  | mk db =>
  cases t with
  | mk dt =>
  have h2 : dt ++ da = dt ++ db := congrArg String.data h
  exact congrArg String.mk (List.append_cancel_left h2)

theorem runLogger_go (H : String → String) (es : List String) (s : LoggerState) :
    (es.foldl (logEvent H) s).lines =
      s.lines ++ es.zip (chainFrom H (s.lastHash.getD "") es) := by
  induction es generalizing s with
  | nil => simp [chainFrom]
  | cons e es ih =>
    simp only [List.foldl_cons]
    rw [ih (logEvent H s e)]
    simp [logEvent, chainFrom]

theorem chainFrom_get? (H : String → String) :
    ∀ (es : List String) (prev : String) (i : ℕ), i < es.length →
      (chainFrom H prev es).get? i =
        some (H ((if i = 0 then prev
            else ((chainFrom H prev es).get? (i - 1)).getD "") ++ es.getD i "")) := by
  intro es
  induction es with
  | nil =>
    intro prev i h
    simp at h
  | cons e es ih =>
    intro prev i h
    match i with
    | 0 => simp [chainFrom]
    | Nat.succ j =>
      have hj : j < es.length := Nat.lt_of_succ_lt_succ h
      match j with
      | 0 =>
        simp only [chainFrom, List.get?_cons_succ, List.get?_cons_zero, List.getD_cons_succ]
        rw [ih (H (prev ++ e)) 0 hj]
        simp
      | Nat.succ m =>
        have hm : m + 1 < es.length := hj
        simp only [chainFrom, List.get?_cons_succ, List.getD_cons_succ]
        rw [ih (H (prev ++ e)) (m + 1) hm]
        simp

theorem chainFrom_ne (H : String → String) (hH : Function.Injective H) :
    ∀ (es : List String) (prev prev' : String), prev ≠ prev' →
      ∀ i, i < es.length →
        (chainFrom H prev es).get? i ≠ (chainFrom H prev' es).get? i := by
  intro es
  induction es with
  | nil =>
    intro prev prev' hne i hi
    simp at hi
  | cons e es ih =>
    intro prev prev' hne i hi
    have hd : H (prev ++ e) ≠ H (prev' ++ e) :=
      fun hc => hne (str_append_cancel_right _ _ _ (hH hc))
    match i with
    | 0 =>
      simp only [chainFrom, List.get?_cons_zero, ne_eq, Option.some.injEq]
      exact hd
    | Nat.succ j =>
      have hj : j < es.length := Nat.lt_of_succ_lt_succ hi
      simp only [chainFrom, List.get?_cons_succ]
      exact ih _ _ hd j hj

theorem chainFrom_set_ne (H : String → String) (hH : Function.Injective H) :
    ∀ (es : List String) (k : ℕ) (prev e' : String), k < es.length →
      es.get? k ≠ some e' →
      ∀ i, k ≤ i → i < es.length →
        (chainFrom H prev (es.set k e')).get? i ≠ (chainFrom H prev es).get? i := by
  intro es
  induction es with
  | nil =>
    intro k prev e' hk
    simp at hk
  | cons e es ih =>
    intro k prev e' hk hne i hki hi
    match k with
    | 0 =>
      have he : e' ≠ e := by
        intro hc
        exact hne (by simp [hc])
      have hd : H (prev ++ e') ≠ H (prev ++ e) :=
        fun hc => he (str_append_cancel_left _ _ _ (hH hc))
      match i with
      | 0 =>
        simp only [List.set_cons_zero, chainFrom, List.get?_cons_zero, ne_eq,
          Option.some.injEq]
        exact hd
      | Nat.succ j =>
        have hj : j < es.length := Nat.lt_of_succ_lt_succ hi
        simp only [List.set_cons_zero, chainFrom, List.get?_cons_succ]
        exact chainFrom_ne H hH es _ _ hd j hj
    | Nat.succ m =>
      have hm : m < es.length := Nat.lt_of_succ_lt_succ hk
      match i with
      | 0 => exact absurd hki (by omega)
      | Nat.succ j =>
        have hj : j < es.length := Nat.lt_of_succ_lt_succ hi
        have hkj : m ≤ j := Nat.le_of_succ_le_succ hki
        simp only [List.set_cons_succ, chainFrom, List.get?_cons_succ]
        exact ih m (H (prev ++ e)) e' hm (by simpa using hne) j hkj hj

/-- C8: the n-th audit line's digest is the hash of the previous digest
(empty string for the first line) concatenated with the n-th formatted
entry; recomputing the chain from the first line reproduces every stored
hash field; and, for a hash with no collisions on the occurring inputs
(injectivity models SHA-256's collision resistance), replacing the k-th
entry by a different string changes the k-th digest and every subsequent
one. -/
theorem c8_hash_chain (H : String → String) (entries : List String)
    (hH : Function.Injective H) (k : ℕ) (e' : String)
    (hk : k < entries.length) (hne : entries.get? k ≠ some e') :
    (runLogger H entries).lines = entries.zip (recomputeChain H entries) ∧
    (∀ i, i < entries.length →
      (recomputeChain H entries).get? i =
        some (H ((if i = 0 then ""
            else ((recomputeChain H entries).get? (i - 1)).getD "")
          ++ entries.getD i ""))) ∧
    (∀ i, k ≤ i → i < entries.length →
      (recomputeChain H (entries.set k e')).get? i ≠
        (recomputeChain H entries).get? i) := by
  refine ⟨?_, ?_, ?_⟩
  · have h := runLogger_go H entries ⟨none, []⟩
    simpa [runLogger, recomputeChain] using h
  · intro i hi
    exact chainFrom_get? H entries "" i hi
  · intro i hki hi
    exact chainFrom_set_ne H hH entries k "" e' hk hne i hki hi

/-- Witness for C8 at a concrete chain: two entries, first entry mutated,
second digest changes; and the logger lines carry exactly the recomputed
chain. -/
theorem c8_hash_chain_witness :
    (recomputeChain (fun s : String => s) (["a", "b"].set 0 "c")).get? 1 ≠
      (recomputeChain (fun s : String => s) ["a", "b"]).get? 1 ∧
    (runLogger (fun s : String => s) ["a", "b"]).lines =
      ["a", "b"].zip (recomputeChain (fun s : String => s) ["a", "b"]) := by
  constructor
  · exact (c8_hash_chain (fun s => s) ["a", "b"] Function.injective_id 0 "c"
      (by decide) (by decide)).2.2 1 (by decide) (by decide)
  · exact (c8_hash_chain (fun s => s) ["a", "b"] Function.injective_id 0 "c"
      (by decide) (by decide)).1

/-- C10: a `Mitigation` whose fallback slot holds Python `None` (the
constructor default) refuses every key that has no cache entry, exactly as
if no fallback had been supplied; yet a cached value of `None` under a
present key is returned normally. -/
theorem c10_none_default_fallback {K β : Type} (m : Mitigation K β)
    (hfb : m.fallback = none) :
    (∀ key : Option K, (∀ k, key = some k → m.cache k = none) →
        m.apply key = Except.error ()) ∧
    (∀ k : K, m.cache k = some none → m.apply (some k) = Except.ok none) := by
  constructor
  · intro key hkey
    match key with
    | none => simp [Mitigation.apply, hfb]
    | some k => simp [Mitigation.apply, hkey k rfl, hfb]
  · intro k hk
    simp [Mitigation.apply, hk]

/-- A concrete mitigation with fallback `None` and the Python value `None`
cached under key 5. -/
def mNone : Mitigation ℕ ℕ :=
  ⟨none, fun k => if k = 5 then some none else none⟩

/-- Witness for C10: key 7 (absent) raises the no-fallback error, key 5
(cached `None`) returns `None`. -/
theorem c10_witness :
    mNone.apply (some 7) = Except.error () ∧
    mNone.apply (some 5) = Except.ok none := by
  constructor
  · exact (c10_none_default_fallback mNone rfl).1 (some 7)
      (fun k hk => by
        obtain rfl := Option.some.inj hk
        rfl)
  · exact (c10_none_default_fallback mNone rfl).2 5 rfl

/-! Concrete fixtures and feature-evaluation lemmas. -/

/-- A freshly constructed checkpointer (default capacity 1000, no events). -/
def cpEmpty : FeedbackCheckpointer := ⟨1000, []⟩

theorem effectiveResult_none {β : Type} (op : Op β) :
    effectiveResult none op = op.result := by
  simp [effectiveResult, tbActive]

theorem effectiveDur_none {β : Type} (op : Op β) :
    effectiveDur none op = op.dur := by
  simp [effectiveDur, tbActive]

theorem rawScore_theta0_only (p : RiskParams) (cp : FeedbackCheckpointer)
    (now : ℚ) (hour : ℕ) (hf : p.thetaFail = 0) (hs : p.thetaSeason = 0)
    (hv : p.thetaVol = 0) (hsev : p.thetaSev = 0) :
    rawScore p cp now hour = p.theta0 := by
  unfold rawScore
  rw [hf, hs, hv, hsev]
  ring

theorem rawScore_sev_only (p : RiskParams) (cp : FeedbackCheckpointer)
    (now : ℚ) (hour : ℕ) (hf : p.thetaFail = 0) (hs : p.thetaSeason = 0)
    (hv : p.thetaVol = 0) :
    rawScore p cp now hour = p.theta0 + p.thetaSev * ((lastErrorSeverity cp : ℚ) : ℝ) := by
  unfold rawScore
  rw [hf, hs, hv]
  ring

/-- The scenario parameters of C3: base −1, failure weight 0.5, seasonal and
volatility weights 0, severity weight 0.8, threshold 1.5. -/
noncomputable def p3 : RiskParams := ⟨-1, 1/2, 0, 0, 4/5, 3/2⟩

/-- Three failures at severity 1.0 recorded at times 1, 2, 3. -/
def cp3 : FeedbackCheckpointer :=
  recordFailure (recordFailure (recordFailure cpEmpty 1 1) 2 1) 3 1

theorem cp3_eq : cp3 = ⟨1000,
    [⟨1, EvType.failure, 1, none⟩, ⟨2, EvType.failure, 1, none⟩,
     ⟨3, EvType.failure, 1, none⟩]⟩ := by
  simp [cp3, cpEmpty, recordFailure, FeedbackCheckpointer.push]

theorem volatility_of_empty (cp : FeedbackCheckpointer) (now window : ℚ)
    (h : volDurations cp now window = []) : volatility cp now window = 0 := by
  unfold volatility
  rw [if_pos h]

theorem rawScore_p3 : rawScore p3 cp3 3 12 = -(7/40 : ℝ) := by
  unfold rawScore
  rw [show recentFailureRate cp3 3 60 = 1/20 by
        rw [cp3_eq]; simp [recentFailureRate, List.filter]; norm_num]
  rw [show lastErrorSeverity cp3 = 1 by
        rw [cp3_eq]; simp [lastErrorSeverity, List.find?]]
  rw [volatility_of_empty cp3 3 300 (by rw [cp3_eq]; simp [volDurations, List.filterMap])]
  show (-1 : ℝ) + 1/2 * _ + 0 * _ + 0 * _ + 4/5 * _ = _
  push_cast
  norm_num

theorem risk_p3_lt : evaluateRisk p3 cp3 3 12 < 3/2 := by
  unfold evaluateRisk
  rw [rawScore_p3]
  have h := softplus_lt_one_of_nonpos (x := -(7/40 : ℝ)) (by norm_num)
  linarith

/-- Manager and state for the C3 scenario: CLOSED, keyed fallback 0. -/
noncomputable def M3 : Manager ℕ ℕ := ⟨p3, none, none, 5⟩

def m3 : Mitigation ℕ ℕ := ⟨some 0, fun _ => none⟩

def s3 : MState ℕ ℕ := ⟨cp3, m3, BState.CLOSED, 0, []⟩

/-- A real call that would succeed with value 4 after 1 second. -/
def op4 : Op ℕ := ⟨1, 0, Except.ok (some 4)⟩

/-- C3 counterexample: with the scenario parameters and 3 failures at
severity 1.0 inside the window, the risk score does NOT exceed 1.5
(it is softplus(−0.175) ≈ 0.609), and the next `execute` call invokes the
wrapped operation once instead of answering from Mitigation. -/
theorem c3_counterexample :
    ¬ (3/2 < evaluateRisk p3 cp3 3 12) ∧
    (execute M3 s3 3 12 (some 1) op4).2.2 = 1 := by
  constructor
  · exact not_lt.mpr (le_of_lt risk_p3_lt)
  · rw [execute_closed_ok M3 s3 3 12 (some 1) op4 (some 4) rfl
      (not_lt.mpr (le_of_lt risk_p3_lt))
      (by rw [show M3.timeBudget = none from rfl, effectiveResult_none]; rfl)]

/-- C3 amended: with those parameters and that history the risk score is
below the 1.5 threshold, so the next `execute` runs the real operation and
returns its value (no Mitigation fallback). -/
theorem c3_amended :
    evaluateRisk p3 cp3 3 12 < 3/2 ∧
    (execute M3 s3 3 12 (some 1) op4).2.1 = Outcome.val (some 4) := by
  constructor
  · exact risk_p3_lt
  · rw [execute_closed_ok M3 s3 3 12 (some 1) op4 (some 4) rfl
      (not_lt.mpr (le_of_lt risk_p3_lt))
      (by rw [show M3.timeBudget = none from rfl, effectiveResult_none]; rfl)]

/-! C7: evaluate_risk and float overflow. -/

theorem recentFailureRate_empty (now window : ℚ) :
    recentFailureRate cpEmpty now window = 0 := by
  simp [recentFailureRate, cpEmpty]

theorem rawScore_empty_theta0 (t0 th : ℝ) (now : ℚ) (hour : ℕ) :
    rawScore ⟨t0, 0, 0, 0, 0, th⟩ cpEmpty now hour = t0 := by
  exact rawScore_theta0_only ⟨t0, 0, 0, 0, 0, th⟩ cpEmpty now hour rfl rfl rfl rfl

/-- Parameters making the raw score 1000 on an empty history. -/
noncomputable def pBig : RiskParams := ⟨1000, 0, 0, 0, 0, 3/2⟩

/-- C7 counterexample: with base weight 1000 and an empty history the raw
linear combination is 1000, which exceeds `log(DBL_MAX) ≈ 709.78`, so
`math.exp(raw)` inside `evaluate_risk` raises `OverflowError` instead of
returning a finite value — the softplus formulation `log1p(exp(raw))` is
not overflow-safe. -/
theorem c7_counterexample :
    evaluateRiskFP pBig cpEmpty 0 0 = Except.error () := by
  unfold evaluateRiskFP
  rw [if_pos]
  rw [show rawScore pBig cpEmpty 0 0 = 1000 from rawScore_empty_theta0 1000 (3/2) 0 0]
  rw [show expMaxArg = 709.7827128933840 from rfl]
  push_cast
  norm_num

/-- C7 amended: `evaluate_risk` returns a finite value ≥ 0 exactly when the
raw linear combination stays at or below the overflow bound of `math.exp`;
past that bound the call raises `OverflowError`. -/
theorem c7_amended (p : RiskParams) (cp : FeedbackCheckpointer) (now : ℚ) (hour : ℕ) :
    (¬ ((expMaxArg : ℚ) : ℝ) < rawScore p cp now hour →
      evaluateRiskFP p cp now hour = Except.ok (softplus (rawScore p cp now hour)) ∧
      0 ≤ softplus (rawScore p cp now hour)) ∧
    (((expMaxArg : ℚ) : ℝ) < rawScore p cp now hour →
      evaluateRiskFP p cp now hour = Except.error ()) := by
  constructor
  · intro h
    unfold evaluateRiskFP
    rw [if_neg h]
    exact ⟨rfl, softplus_nonneg _⟩
  · intro h
    unfold evaluateRiskFP
    rw [if_pos h]

/-- Parameters with every weight zero (raw score 0 on any history). -/
noncomputable def pZero : RiskParams := ⟨0, 0, 0, 0, 0, 1⟩

/-- Witness for C7 amended at raw score 0 on the empty history. -/
theorem c7_amended_witness :
    ¬ ((expMaxArg : ℚ) : ℝ) < rawScore pZero cpEmpty 0 0 ∧
    evaluateRiskFP pZero cpEmpty 0 0 =
      Except.ok (softplus (rawScore pZero cpEmpty 0 0)) := by
  have hraw : ¬ ((expMaxArg : ℚ) : ℝ) < rawScore pZero cpEmpty 0 0 := by
    rw [show rawScore pZero cpEmpty 0 0 = 0 from rawScore_empty_theta0 0 1 0 0]
    rw [show expMaxArg = 709.7827128933840 from rfl]
    push_cast
    norm_num
  exact ⟨hraw, ((c7_amended pZero cpEmpty 0 0).1 hraw).1⟩

/-! C1 and C2: failure propagation and the HALF_OPEN probe. -/

theorem one_lt_softplus_two : (1 : ℝ) < softplus 2 :=
  lt_trans one_lt_two (lt_softplus 2)

/-- Outcome of `execute` when the call is admitted to the run phase: the
block gate and the admission trip are both passed, so the result is the
handler's value, or Mitigation for a (fresh or original)
`OpenCircuitException`, or the raised exception itself. -/
theorem execute_run_outcome {K β : Type} (M : Manager K β) (s : MState K β)
    (now : ℚ) (hour : ℕ) (key : Option K) (op : Op β)
    (hnb : ¬ (s.bstate = BState.OPEN ∧ now - s.lastEvent < M.cooldown))
    (hpre : ¬ M.params.threshold < evaluateRisk M.params s.cp now hour) :
    (execute M s now hour key op).2 =
      (match (handlerRun M s.cp now hour op).res with
       | Except.ok v => Outcome.val v
       | Except.error e =>
         if e = Exc.openCircuitErr then applyOutcome s.mitigation key
         else Outcome.exc e, 1) := by
  unfold execute
  rw [if_neg hnb, if_neg hpre]
  by_cases h0 : s.bstate = BState.OPEN
  · rw [if_pos h0]
    dsimp only
    cases hres : (handlerRun M s.cp now hour op).res with
    | ok v => simp [hres]
    | error e =>
      by_cases he : e = Exc.openCircuitErr <;> simp [hres, he]
  · rw [if_neg h0]
    dsimp only
    cases hres : (handlerRun M s.cp now hour op).res with
    | ok v =>
      by_cases hh : s.bstate = BState.HALF_OPEN <;> simp [hres, hh]
    | error e =>
      by_cases he : e = Exc.openCircuitErr <;> simp [hres, he]

/-- C1 amended: when an admitted operation raises `e`, the exception is
propagated to the caller verbatim whenever the refreshed risk stays at or
below the threshold and `e` is not itself an `OpenCircuitException`; the
call is answered by `Mitigation.apply(key)` only when the refreshed risk
trips the breaker, or when `e` is an `OpenCircuitException`; Mitigation's
own no-fallback `OpenCircuitException` can additionally surface from
`applyOutcome` itself. -/
theorem c1_amended {K β : Type} (M : Manager K β) (s : MState K β)
    (now : ℚ) (hour : ℕ) (key : Option K) (op : Op β) (e : Exc)
    (hnb : ¬ (s.bstate = BState.OPEN ∧ now - s.lastEvent < M.cooldown))
    (hpre : ¬ M.params.threshold < evaluateRisk M.params s.cp now hour)
    (herr : effectiveResult M.timeBudget op = Except.error e) :
    (¬ M.params.threshold < postFailRisk M s.cp now hour op e →
      e ≠ Exc.openCircuitErr →
      (execute M s now hour key op).2.1 = Outcome.exc e) ∧
    ((M.params.threshold < postFailRisk M s.cp now hour op e ∨
        e = Exc.openCircuitErr) →
      (execute M s now hour key op).2.1 = applyOutcome s.mitigation key) := by
  constructor
  · intro hpass hne
    have h := congrArg Prod.fst (execute_run_outcome M s now hour key op hnb hpre)
    rw [handlerRun_pass M s.cp now hour op e herr hpass] at h
    simpa [hne] using h
  · intro htrip
    have h := congrArg Prod.fst (execute_run_outcome M s now hour key op hnb hpre)
    rcases htrip with htrip | hoc
    · rw [handlerRun_trip M s.cp now hour op e herr htrip] at h
      simpa using h
    · by_cases hpost : M.params.threshold < postFailRisk M s.cp now hour op e
      · rw [handlerRun_trip M s.cp now hour op e herr hpost] at h
        simpa using h
      · rw [handlerRun_pass M s.cp now hour op e herr hpost] at h
        simpa [hoc] using h

/-- Parameters with all weights zero and a very high threshold 1000, so the
breaker never trips. -/
noncomputable def p1 : RiskParams := ⟨0, 0, 0, 0, 0, 1000⟩

noncomputable def M1 : Manager ℕ ℕ := ⟨p1, none, none, 5⟩

/-- A mitigation with static fallback 99 and an empty cache. -/
def mFB : Mitigation ℕ ℕ := ⟨some 99, fun _ => none⟩

/-- A fresh CLOSED manager state. -/
def sC : MState ℕ ℕ := ⟨cpEmpty, mFB, BState.CLOSED, 0, []⟩

/-- An operation that raises an ordinary exception after 1 second. -/
def opBoom : Op ℕ := ⟨1, 0, Except.error Exc.otherErr⟩

theorem risk_p1_lt (cp : FeedbackCheckpointer) (now : ℚ) (hour : ℕ) :
    evaluateRisk p1 cp now hour < 1 := by
  unfold evaluateRisk
  rw [rawScore_theta0_only p1 cp now hour rfl rfl rfl rfl]
  exact softplus_lt_one_of_nonpos le_rfl

theorem risk_p1_not_trip (cp : FeedbackCheckpointer) (now : ℚ) (hour : ℕ) :
    ¬ M1.params.threshold < evaluateRisk M1.params cp now hour := by
  show ¬ (1000 : ℝ) < evaluateRisk p1 cp now hour
  have h := risk_p1_lt cp now hour
  linarith

/-- C1 counterexample: in a CLOSED breaker with threshold 1000 and a
configured fallback, an operation raising an ordinary exception makes
`execute` re-raise that exception to the caller instead of resolving to the
operation's result or a Mitigation-provided value. -/
theorem c1_counterexample :
    (execute M1 sC 10 12 (some 1) opBoom).2.1 = Outcome.exc Exc.otherErr ∧
    applyOutcome mFB (some 1) = Outcome.val (some 99) := by
  constructor
  · have h := congrArg Prod.fst (execute_run_outcome M1 sC 10 12 (some 1) opBoom
      (by simp [sC]) (risk_p1_not_trip cpEmpty 10 12))
    rw [handlerRun_pass M1 sC.cp 10 12 opBoom Exc.otherErr
      (by rw [show M1.timeBudget = none from rfl, effectiveResult_none]; rfl)
      (risk_p1_not_trip (recordFailure sC.cp
          (10 + effectiveDur M1.timeBudget opBoom)
          (if Exc.otherErr = Exc.timeoutErr then 1/2 else 1))
          (10 + effectiveDur M1.timeBudget opBoom) 12)] at h
    simpa using h
  · simp [applyOutcome, Mitigation.apply, mFB]

/-- Witness for C1 amended: the same concrete propagation instance,
obtained by applying the amended theorem. -/
theorem c1_amended_witness :
    (execute M1 sC 10 12 (some 1) opBoom).2.1 = Outcome.exc Exc.otherErr := by
  exact (c1_amended M1 sC 10 12 (some 1) opBoom Exc.otherErr
    (by simp [sC]) (risk_p1_not_trip cpEmpty 10 12)
    (by rw [show M1.timeBudget = none from rfl, effectiveResult_none]; rfl)).1
    (risk_p1_not_trip (recordFailure sC.cp
        (10 + effectiveDur M1.timeBudget opBoom)
        (if Exc.otherErr = Exc.timeoutErr then 1/2 else 1))
        (10 + effectiveDur M1.timeBudget opBoom) 12)
    (by simp)

/-- C2 amended: from OPEN with the cooldown expired and pre-risk at or below
threshold, a successful probe moves the breaker to CLOSED and returns the
value; a failing probe whose refreshed risk trips the breaker is answered by
Mitigation but leaves the breaker in HALF_OPEN (not OPEN) with
`last_event = now` set by the OPEN→HALF_OPEN transition; the OPEN state is
re-entered only by a later call whose admission risk exceeds the
threshold. -/
theorem c2_amended {K β : Type} (M : Manager K β) (s : MState K β)
    (now : ℚ) (hour : ℕ) (key : Option K) (op : Op β)
    (h0 : s.bstate = BState.OPEN)
    (h1 : ¬ now - s.lastEvent < M.cooldown)
    (h2 : ¬ M.params.threshold < evaluateRisk M.params s.cp now hour) :
    (∀ v, effectiveResult M.timeBudget op = Except.ok v →
      (execute M s now hour key op).1.bstate = BState.CLOSED ∧
      (execute M s now hour key op).2.1 = Outcome.val v) ∧
    (∀ e, effectiveResult M.timeBudget op = Except.error e →
      M.params.threshold < postFailRisk M s.cp now hour op e →
      (execute M s now hour key op).1.bstate = BState.HALF_OPEN ∧
      (execute M s now hour key op).1.lastEvent = now ∧
      (execute M s now hour key op).2.1 = applyOutcome s.mitigation key) := by
  constructor
  · intro v hok
    rw [execute_probe_ok M s now hour key op v h0 h1 h2 hok]
    exact ⟨rfl, rfl⟩
  · intro e herr htrip
    rw [execute_probe_err_trip M s now hour key op e h0 h1 h2 herr htrip]
    exact ⟨rfl, rfl, rfl⟩

/-- Parameters tripping on a single severity-1 failure: severity weight 2,
threshold 1. -/
noncomputable def p2 : RiskParams := ⟨0, 0, 0, 0, 2, 1⟩

noncomputable def M2 : Manager ℕ ℕ := ⟨p2, none, none, 5⟩

/-- An OPEN manager state whose cooldown (5 s since `last_event = 0`) has
expired at time 10. -/
def sO : MState ℕ ℕ := ⟨cpEmpty, mFB, BState.OPEN, 0, []⟩

theorem lastSev_cpEmpty_record (t : ℚ) :
    lastErrorSeverity (recordFailure cpEmpty t 1) = 1 := by
  simp [recordFailure, FeedbackCheckpointer.push, cpEmpty, lastErrorSeverity,
    List.find?]

theorem risk_p2_pre : ¬ M2.params.threshold < evaluateRisk M2.params sO.cp 10 12 := by
  show ¬ (1 : ℝ) < evaluateRisk p2 cpEmpty 10 12
  unfold evaluateRisk
  rw [rawScore_sev_only p2 cpEmpty 10 12 rfl rfl rfl]
  rw [show lastErrorSeverity cpEmpty = 0 from rfl]
  rw [show p2.theta0 = (0 : ℝ) from rfl, show p2.thetaSev = (2 : ℝ) from rfl]
  rw [show (0 : ℝ) + 2 * (((0 : ℚ) : ℝ)) = 0 by push_cast; ring]
  have h := softplus_lt_one_of_nonpos (x := (0 : ℝ)) le_rfl
  linarith

theorem risk_p2_post :
    M2.params.threshold < postFailRisk M2 sO.cp 10 12 opBoom Exc.otherErr := by
  unfold postFailRisk
  show (1 : ℝ) < evaluateRisk p2 _ _ _
  unfold evaluateRisk
  rw [rawScore_sev_only p2 _ _ _ rfl rfl rfl]
  rw [show effectiveDur M2.timeBudget opBoom = 1 by
    rw [show M2.timeBudget = none from rfl, effectiveDur_none]; rfl]
  rw [show (if Exc.otherErr = Exc.timeoutErr then (1 : ℚ)/2 else 1) = 1 by simp]
  rw [show sO.cp = cpEmpty from rfl, show (10 : ℚ) + 1 = 11 by norm_num]
  rw [lastSev_cpEmpty_record 11]
  have h := one_lt_softplus_two
  have heq : (0 : ℝ) + 2 * ((1 : ℚ) : ℝ) = 2 := by push_cast; ring
  rw [show p2.theta0 = (0 : ℝ) from rfl, show p2.thetaSev = (2 : ℝ) from rfl, heq]
  exact h

/-- C2 counterexample: a failing HALF_OPEN probe (whose failure handling
yields an `OpenCircuitException`) leaves the breaker in HALF_OPEN — not
OPEN — while returning the Mitigation fallback. -/
theorem c2_counterexample :
    (execute M2 sO 10 12 (some 1) opBoom).1.bstate = BState.HALF_OPEN ∧
    BState.HALF_OPEN ≠ BState.OPEN ∧
    (execute M2 sO 10 12 (some 1) opBoom).2.1 = Outcome.val (some 99) := by
  have herr : effectiveResult M2.timeBudget opBoom = Except.error Exc.otherErr := by
    rw [show M2.timeBudget = none from rfl, effectiveResult_none]
    rfl
  rw [execute_probe_err_trip M2 sO 10 12 (some 1) opBoom Exc.otherErr rfl
    (by show ¬ (10 : ℚ) - 0 < 5; norm_num) risk_p2_pre herr risk_p2_post]
  refine ⟨rfl, by decide, ?_⟩
  simp [sO, applyOutcome, Mitigation.apply, mFB]

/-- An operation that succeeds with value 7 after 1 second. -/
def opOk7 : Op ℕ := ⟨1, 0, Except.ok (some 7)⟩

/-- Witness for C2 amended: the successful-probe half at a concrete probe,
obtained by applying the amended theorem. -/
theorem c2_amended_witness :
    (execute M2 sO 10 12 (some 1) opOk7).1.bstate = BState.CLOSED ∧
    (execute M2 sO 10 12 (some 1) opOk7).2.1 = Outcome.val (some 7) := by
  exact (c2_amended M2 sO 10 12 (some 1) opOk7 rfl
    (by show ¬ (10 : ℚ) - 0 < 5; norm_num) risk_p2_pre).1 (some 7)
    (by rw [show M2.timeBudget = none from rfl, effectiveResult_none]; rfl)

/-! C4: the OPEN cooldown gate. -/

/-- C4 amended: while OPEN and inside the cooldown, `execute` answers with
`Mitigation.apply(key)` and never invokes the operation (call count 0); the
risk score, however, IS evaluated once on entry — its value is recorded in
the emitted BLOCK audit entry — it merely does not influence the
decision. -/
theorem c4_amended {K β : Type} (M : Manager K β) (s : MState K β)
    (now : ℚ) (hour : ℕ) (key : Option K) (op : Op β)
    (h1 : s.bstate = BState.OPEN) (h2 : now - s.lastEvent < M.cooldown) :
    (execute M s now hour key op).2.1 = applyOutcome s.mitigation key ∧
    (execute M s now hour key op).2.2 = 0 ∧
    (execute M s now hour key op).1.log =
      s.log ++ [("BLOCK", LogDetail.riskD (evaluateRisk M.params s.cp now hour))] := by
  rw [execute_blocked M s now hour key op h1 h2]
  exact ⟨rfl, rfl, rfl⟩

/-- One failure at severity 1 recorded at time 7. -/
def cpF1 : FeedbackCheckpointer := recordFailure cpEmpty 7 1

/-- An OPEN state inside the cooldown window: `last_event = 8`, call at 10,
cooldown 5. -/
def sO5 : MState ℕ ℕ := ⟨cpF1, mFB, BState.OPEN, 8, []⟩

theorem risk_p2_cpF1 : evaluateRisk M2.params sO5.cp 10 12 = softplus 2 := by
  show evaluateRisk p2 cpF1 10 12 = softplus 2
  unfold evaluateRisk
  rw [rawScore_sev_only p2 cpF1 10 12 rfl rfl rfl]
  rw [show cpF1 = recordFailure cpEmpty 7 1 from rfl, lastSev_cpEmpty_record 7]
  rw [show p2.theta0 = (0 : ℝ) from rfl, show p2.thetaSev = (2 : ℝ) from rfl]
  norm_num

/-- C4 counterexample: a blocked call does re-evaluate the risk score — the
BLOCK audit entry it appends carries the freshly computed value softplus 2
(> 0, derived from the failure recorded after the trip) — even though the
operation is not invoked. -/
theorem c4_counterexample :
    (execute M2 sO5 10 12 (some 1) opBoom).1.log =
      [("BLOCK", LogDetail.riskD (softplus 2))] ∧
    (0 : ℝ) < softplus 2 ∧
    (execute M2 sO5 10 12 (some 1) opBoom).2.2 = 0 := by
  rw [execute_blocked M2 sO5 10 12 (some 1) opBoom rfl
    (by show (10 : ℚ) - 8 < 5; norm_num)]
  refine ⟨?_, ?_, rfl⟩
  · show sO5.log ++ [("BLOCK", LogDetail.riskD (evaluateRisk M2.params sO5.cp 10 12))] = _
    rw [risk_p2_cpF1]
    rfl
  · have h := lt_softplus 2
    linarith

/-- Witness for C4 amended at the concrete blocked state. -/
theorem c4_amended_witness :
    (execute M2 sO5 10 12 (some 1) opBoom).2.1 = applyOutcome sO5.mitigation (some 1) ∧
    (execute M2 sO5 10 12 (some 1) opBoom).2.2 = 0 := by
  have h := c4_amended M2 sO5 10 12 (some 1) opBoom rfl
    (by show (10 : ℚ) - 8 < 5; norm_num)
  exact ⟨h.1, h.2.1⟩

/-! C5: the memory budget is stored but never enforced. -/

/-- A manager with a 100-byte memory budget and never-tripping parameters. -/
noncomputable def M5 : Manager ℕ ℕ := ⟨pZero, none, some 100, 5⟩

/-- An operation succeeding with value 7 whose peak traced allocation is the
given number of bytes. -/
def opBig (peak : ℕ) : Op ℕ := ⟨1, peak, Except.ok (some 7)⟩

theorem risk_pZero_not_trip (cp : FeedbackCheckpointer) (now : ℚ) (hour : ℕ) :
    ¬ M5.params.threshold < evaluateRisk M5.params cp now hour := by
  show ¬ (1 : ℝ) < evaluateRisk pZero cp now hour
  unfold evaluateRisk
  rw [rawScore_theta0_only pZero cp now hour rfl rfl rfl rfl]
  rw [show pZero.theta0 = (0 : ℝ) from rfl]
  have h := softplus_lt_one_of_nonpos (x := (0 : ℝ)) le_rfl
  linarith

/-- C5: with a configured memory budget, a call whose peak allocation
dwarfs the budget (10^9 bytes vs 100) completes as a plain success: the
result is returned, a SUCCESS event (severity 0) is recorded, no FAILURE
event and no failure handling happens, and the whole call is independent
of the peak allocation — the source starts and stops `tracemalloc` but
never samples or compares the peak. -/
theorem c5_memory_budget_unenforced :
    (∀ peak1 peak2 : ℕ,
      execute M5 sC 10 12 (some 1) (opBig peak1) =
        execute M5 sC 10 12 (some 1) (opBig peak2)) ∧
    (execute M5 sC 10 12 (some 1) (opBig (10 ^ 9))).2.1 = Outcome.val (some 7) ∧
    (execute M5 sC 10 12 (some 1) (opBig (10 ^ 9))).1.cp.events =
      [⟨11, EvType.success, 0, some 1⟩] ∧
    (execute M5 sC 10 12 (some 1) (opBig (10 ^ 9))).1.log = [] := by
  have hrun : ∀ peak : ℕ, execute M5 sC 10 12 (some 1) (opBig peak) =
      ({ sC with cp := recordSuccess sC.cp (10 + 1) (some 1) },
        Outcome.val (some 7), 1) := by
    intro peak
    exact execute_closed_ok M5 sC 10 12 (some 1) (opBig peak) (some 7) rfl
      (risk_pZero_not_trip sC.cp 10 12)
      (by rw [show M5.timeBudget = none from rfl, effectiveResult_none]; rfl)
  refine ⟨fun peak1 peak2 => by rw [hrun peak1, hrun peak2], ?_, ?_, ?_⟩
  · rw [hrun (10 ^ 9)]
  · rw [hrun (10 ^ 9)]
    show (recordSuccess sC.cp (10 + 1) (some 1)).events = _
    norm_num [recordSuccess, FeedbackCheckpointer.push, sC, cpEmpty]
  · rw [hrun (10 ^ 9)]
    rfl

/-! C6: the manager never populates the Mitigation cache. -/

theorem execute_mitigation_eq {K β : Type} (M : Manager K β) (s : MState K β)
    (now : ℚ) (hour : ℕ) (key : Option K) (op : Op β) :
    (execute M s now hour key op).1.mitigation = s.mitigation := by
  unfold execute
  by_cases hb : s.bstate = BState.OPEN ∧ now - s.lastEvent < M.cooldown
  · rw [if_pos hb]
  · rw [if_neg hb]
    by_cases ht : M.params.threshold < evaluateRisk M.params s.cp now hour
    · rw [if_pos ht]
    · rw [if_neg ht]
      by_cases h0 : s.bstate = BState.OPEN
      · rw [if_pos h0]
        dsimp only
        cases hres : (handlerRun M s.cp now hour op).res with
        | ok v => simp [hres]
        | error e =>
          by_cases he : e = Exc.openCircuitErr <;> simp [hres, he]
      · rw [if_neg h0]
        dsimp only
        cases hres : (handlerRun M s.cp now hour op).res with
        | ok v =>
          by_cases hh : s.bstate = BState.HALF_OPEN <;> simp [hres, hh]
        | error e =>
          by_cases he : e = Exc.openCircuitErr <;> simp [hres, he]

/-- C6 amended: `execute` never writes to the Mitigation object — the cache
is exactly as before the call on every path (`Mitigation` has no `set`
method and the manager never stores results), so a later degraded-period
`apply(k)` sees only pre-existing entries or the static fallback, not the
last successful result. -/
theorem c6_amended {K β : Type} (M : Manager K β) (s : MState K β)
    (now : ℚ) (hour : ℕ) (key : Option K) (op : Op β) :
    (execute M s now hour key op).1.mitigation = s.mitigation ∧
    ∀ k2 : Option K,
      ((execute M s now hour key op).1.mitigation).apply k2 = s.mitigation.apply k2 := by
  refine ⟨execute_mitigation_eq M s now hour key op, fun k2 => ?_⟩
  rw [execute_mitigation_eq M s now hour key op]

/-- An operation succeeding with value 42 after 1 second. -/
def op42 : Op ℕ := ⟨1, 0, Except.ok (some 42)⟩

/-- C6 counterexample: after a successful CLOSED-state call with key 7
returning 42, a degraded-period `apply(7)` still returns the static
fallback 99 — the result was never cached under the key. -/
theorem c6_counterexample :
    (execute M1 sC 10 12 (some 7) op42).2.1 = Outcome.val (some 42) ∧
    ((execute M1 sC 10 12 (some 7) op42).1.mitigation).apply (some 7) =
      Except.ok (some 99) ∧
    (Except.ok (some 99) : Except Unit (Option ℕ)) ≠ Except.ok (some 42) := by
  rw [execute_closed_ok M1 sC 10 12 (some 7) op42 (some 42) rfl
    (risk_p1_not_trip sC.cp 10 12)
    (by rw [show M1.timeBudget = none from rfl, effectiveResult_none]; rfl)]
  refine ⟨rfl, ?_, by simp⟩
  show mFB.apply (some 7) = _
  simp [Mitigation.apply, mFB]

/-! C9: the set of audit event names the breaker can emit. -/

/-- The event names the source can actually write: the spec's six plus
`"FAIL"` from `Handler._fail`. -/
def allowedEventNames : List String :=
  ["ERROR", "TRIP", "BLOCK", "OPEN", "HALF_OPEN", "CLOSED", "FAIL"]

theorem handlerRun_log_names {K β : Type} (M : Manager K β)
    (cp : FeedbackCheckpointer) (now : ℚ) (hour : ℕ) (op : Op β) :
    ∀ r ∈ (handlerRun M cp now hour op).logs, r.1 ∈ allowedEventNames := by
  cases heff : effectiveResult M.timeBudget op with
  | ok v =>
    rw [handlerRun_ok M cp now hour op v heff]
    simp
  | error e =>
    by_cases ht : M.params.threshold < postFailRisk M cp now hour op e
    · rw [handlerRun_trip M cp now hour op e heff ht]
      intro r hr
      simp only [List.mem_cons, List.not_mem_nil, or_false] at hr
      rcases hr with h | h | h
      · subst h
        show ("FAIL" : String) ∈ allowedEventNames
        decide
      · subst h
        show ("ERROR" : String) ∈ allowedEventNames
        decide
      · subst h
        show ("TRIP" : String) ∈ allowedEventNames
        decide
    · rw [handlerRun_pass M cp now hour op e heff ht]
      intro r hr
      simp only [List.mem_cons, List.not_mem_nil, or_false] at hr
      rcases hr with h | h
      · subst h
        show ("FAIL" : String) ∈ allowedEventNames
        decide
      · subst h
        show ("ERROR" : String) ∈ allowedEventNames
        decide

/-- C9 amended: every audit entry a call appends has one of the event names
ERROR, TRIP, BLOCK, OPEN, HALF_OPEN, CLOSED, or FAIL (the last one missing
from the spec's list: `Handler._fail` writes a FAIL entry on every
execution failure). -/
theorem c9_amended {K β : Type} (M : Manager K β) (s : MState K β)
    (now : ℚ) (hour : ℕ) (key : Option K) (op : Op β) :
    ∃ added : List LogRec,
      (execute M s now hour key op).1.log = s.log ++ added ∧
      ∀ r ∈ added, r.1 ∈ allowedEventNames := by
  unfold execute
  by_cases hb : s.bstate = BState.OPEN ∧ now - s.lastEvent < M.cooldown
  · rw [if_pos hb]
    refine ⟨[("BLOCK", LogDetail.riskD (evaluateRisk M.params s.cp now hour))], rfl, ?_⟩
    intro r hr
    simp only [List.mem_cons, List.not_mem_nil, or_false] at hr
    subst hr
    show ("BLOCK" : String) ∈ allowedEventNames
    decide
  · rw [if_neg hb]
    by_cases ht : M.params.threshold < evaluateRisk M.params s.cp now hour
    · rw [if_pos ht]
      refine ⟨[("OPEN", LogDetail.riskD (evaluateRisk M.params s.cp now hour))], rfl, ?_⟩
      intro r hr
      simp only [List.mem_cons, List.not_mem_nil, or_false] at hr
      subst hr
      show ("OPEN" : String) ∈ allowedEventNames
      decide
    · rw [if_neg ht]
      by_cases h0 : s.bstate = BState.OPEN
      · rw [if_pos h0]
        dsimp only
        cases hres : (handlerRun M s.cp now hour op).res with
        | ok v =>
          refine ⟨("HALF_OPEN", LogDetail.riskD (evaluateRisk M.params s.cp now hour)) ::
            ((handlerRun M s.cp now hour op).logs ++ [("CLOSED", LogDetail.timeD now)]),
            ?_, ?_⟩
          · simp [hres]
          · intro r hr
            simp only [List.mem_cons, List.mem_append, List.not_mem_nil, or_false] at hr
            rcases hr with h | h | h
            · subst h
              show ("HALF_OPEN" : String) ∈ allowedEventNames
              decide
            · exact handlerRun_log_names M s.cp now hour op r h
            · subst h
              show ("CLOSED" : String) ∈ allowedEventNames
              decide
        | error e =>
          refine ⟨("HALF_OPEN", LogDetail.riskD (evaluateRisk M.params s.cp now hour)) ::
            (handlerRun M s.cp now hour op).logs, ?_, ?_⟩
          · by_cases he : e = Exc.openCircuitErr <;> simp [hres, he]
          · intro r hr
            simp only [List.mem_cons] at hr
            rcases hr with h | h
            · subst h
              show ("HALF_OPEN" : String) ∈ allowedEventNames
              decide
            · exact handlerRun_log_names M s.cp now hour op r h
      · rw [if_neg h0]
        dsimp only
        cases hres : (handlerRun M s.cp now hour op).res with
        | ok v =>
          refine ⟨(handlerRun M s.cp now hour op).logs ++
            (if s.bstate = BState.HALF_OPEN then [(("CLOSED" : String), LogDetail.timeD now)] else []),
            ?_, ?_⟩
          · by_cases hh : s.bstate = BState.HALF_OPEN <;> simp [hres, hh]
          · intro r hr
            simp only [List.mem_append] at hr
            rcases hr with h | h
            · exact handlerRun_log_names M s.cp now hour op r h
            · by_cases hh : s.bstate = BState.HALF_OPEN
              · rw [if_pos hh] at h
                simp only [List.mem_cons, List.not_mem_nil, or_false] at h
                subst h
                show ("CLOSED" : String) ∈ allowedEventNames
                decide
              · rw [if_neg hh] at h
                simp at h
        | error e =>
          refine ⟨(handlerRun M s.cp now hour op).logs, ?_, ?_⟩
          · by_cases he : e = Exc.openCircuitErr <;> simp [hres, he]
          · intro r hr
            exact handlerRun_log_names M s.cp now hour op r hr

/-- C9 counterexample: a failing CLOSED-state execution writes a FAIL audit
entry, an event name outside the six the claim allows. -/
theorem c9_counterexample :
    (execute M1 sC 10 12 (some 1) opBoom).1.log.map Prod.fst = ["FAIL", "ERROR"] ∧
    ("FAIL" : String) ∉
      (["ERROR", "TRIP", "BLOCK", "OPEN", "HALF_OPEN", "CLOSED"] : List String) := by
  constructor
  · rw [execute_closed_err_pass M1 sC 10 12 (some 1) opBoom Exc.otherErr rfl
      (risk_p1_not_trip sC.cp 10 12)
      (by rw [show M1.timeBudget = none from rfl, effectiveResult_none]; rfl)
      (risk_p1_not_trip (recordFailure sC.cp
        (10 + effectiveDur M1.timeBudget opBoom)
        (if Exc.otherErr = Exc.timeoutErr then 1/2 else 1))
        (10 + effectiveDur M1.timeBudget opBoom) 12)
      (by decide)]
    simp [sC]
  · decide

end HazardCB
